import Mathlib

/-!
Shallow embedding of the collaborative-editor server (`src/server/index.js`).

Modelling conventions:
* A JS string is modelled as `List Char` (a sequence of code units); `s.slice(0, p)`
  with `p ≥ 0` is `List.take p`, `s.slice(p)` is `List.drop p`.
* A JS `Map` is modelled as an association list without duplicate keys;
  `Map.get` is `alookup`, `Map.set` is `ainsert`, `Map.delete` is `aerase`.
* Effectful fresh values (`uuidv4()`, `Date.now()`, `Math.random()`) are passed
  to each handler as explicit parameters (`now`, entropy draws, fresh ids).
* A socket.io emit is recorded as an `Emit` value (target and event kind);
  `socket.to(room).emit` excludes the sender, `io.to(room).emit` does not,
  `socket.emit` goes only to the sender's own socket.
-/

namespace Crsor

abbrev ConnId := String
abbrev RoomId := String

/-- Lookup (`Map.get k`) on an association-list map. -/
def alookup {β : Type} (k : String) : List (String × β) → Option β
  | [] => none
  | (k', v) :: rest => if k = k' then some v else alookup k rest

/-- Update (`Map.set k v`): replace the binding of `k` if present, else append it. -/
def ainsert {β : Type} (k : String) (v : β) : List (String × β) → List (String × β)
  | [] => [(k, v)]
  | (k', v') :: rest => if k = k' then (k, v) :: rest else (k', v') :: ainsert k v rest

/-- Removal (`Map.delete k`): remove the binding of `k`. -/
def aerase {β : Type} (k : String) : List (String × β) → List (String × β)
  | [] => []
  | (k', v') :: rest => if k = k' then aerase k rest else (k', v') :: aerase k rest

/-- The `type` field of a `DocumentOperation`: `'insert'` or `'delete'`. -/
inductive OpType
  | insert
  | delete
deriving DecidableEq, Repr

/-- The data fields of a `DocumentOperation` (`src/server/index.js:28-37`): the
constructor arguments `type`, `position`, `content`, `length`.  The effectful
metadata the constructor also assigns (`id = uuidv4()`, `timestamp = Date.now()`)
is not part of the data model here.  Positions and lengths are non-negative per
the data model, so they are `Nat`. -/
structure Operation where
  type : OpType
  position : Nat
  content : List Char
  length : Nat
deriving DecidableEq, Repr

/-- The function `transformOperation(op1, op2)` (`src/server/index.js:40-59`), on
the data fields.  `Math.max(op2.position - op1.length, op1.position)` over
non-negative integers equals `max (op2.position - op1.length) op1.position`
with truncated `Nat` subtraction. -/
def transformOperation (op1 op2 : Operation) : Operation :=
  if op1.position ≤ op2.position then
    match op1.type with
    | OpType.insert =>
        { type := op2.type
          position := op2.position + op1.content.length
          content := op2.content
          length := op2.length }
    | OpType.delete =>
        { type := op2.type
          position := max (op2.position - op1.length) op1.position
          content := op2.content
          length := op2.length }
  else
    op2

/-- Application of an operation to the document content
(`src/server/index.js:169-177`): for insert,
`content.slice(0, position) + operation.content + content.slice(position)`;
for delete,
`content.slice(0, position) + content.slice(position + operation.length)`. -/
def applyOp (content : List Char) (op : Operation) : List Char :=
  match op.type with
  | OpType.insert => content.take op.position ++ op.content ++ content.drop op.position
  | OpType.delete => content.take op.position ++ content.drop (op.position + op.length)

/-- Modelled from the spec (§4.1 wording, for the refinement claim C1 only):
insert splits the content at the position clamped to the content length and
joins the halves around the text; delete removes the window
`[position, position + length)` clamped to `[0, length(content)]`. -/
def specApply (content : List Char) (op : Operation) : List Char :=
  match op.type with
  | OpType.insert =>
      let p := min op.position content.length
      content.take p ++ op.content ++ content.drop p
  | OpType.delete =>
      let start := min op.position content.length
      let stop := min (op.position + op.length) content.length
      content.take start ++ content.drop stop

/-- Cursor position `{ line, column }`. -/
structure Cursor where
  line : Nat
  column : Nat
deriving DecidableEq, Repr

/-- The user object built by the join-room handler (`src/server/index.js:125-131`). -/
structure User where
  id : ConnId
  name : String
  color : String
  cursor : Cursor
  joinedAt : Nat
deriving DecidableEq, Repr

/-- A document: text content and language tag (`room.document`). -/
structure Document where
  content : List Char
  language : String
deriving DecidableEq, Repr

/-- A chat message as built by the chat-message handler (`src/server/index.js:238-245`). -/
structure ChatMessage where
  id : String
  userId : ConnId
  userName : String
  userColor : String
  content : String
  timestamp : Nat
deriving DecidableEq, Repr

/-- A room record (`src/server/index.js:63-75`). -/
structure Room where
  id : RoomId
  name : String
  document : Document
  users : List (ConnId × User)
  operations : List Operation
  chat : List ChatMessage
  createdAt : Nat
  lastActivity : Nat
deriving DecidableEq, Repr

/-- A `userSessions` entry: `{ roomId, user }` (`src/server/index.js:138`). -/
structure Session where
  roomId : RoomId
  user : User
deriving DecidableEq, Repr

/-- The kinds of server-to-client events this server emits. -/
inductive EventKind
  | roomJoined
  | userJoined
  | userLeft
  | documentOperation
  | cursorPosition
  | languageChange
  | chatMessage
  | aiSuggestion
deriving DecidableEq, Repr

/-- An emit target: `socket.emit` reaches only the given socket,
`socket.to(r).emit` reaches members of `r` other than the sender,
`io.to(r).emit` reaches every member of `r`. -/
inductive EmitTarget
  | toSocket (c : ConnId)
  | toRoomExcept (r : RoomId) (sender : ConnId)
  | toRoomAll (r : RoomId)
deriving DecidableEq, Repr

/-- One emitted event: its target and kind. -/
structure Emit where
  target : EmitTarget
  event : EventKind
deriving DecidableEq, Repr

/-- The whole server state: the two global maps (`rooms`, `userSessions`,
`src/server/index.js:24-25`), the socket.io room membership of each socket
(`socket.join` / `socket.leave`), and the pending empty-room cleanup
timeouts scheduled by the disconnect handler. -/
structure ServerState where
  rooms : List (RoomId × Room)
  userSessions : List (ConnId × Session)
  joined : List (ConnId × RoomId)
  timers : List RoomId
deriving DecidableEq, Repr

/-- The state at process start: both maps empty. -/
def initialState : ServerState :=
  { rooms := [], userSessions := [], joined := [], timers := [] }

/-- The canned welcome text of a fresh room (`src/server/index.js:67`). -/
def welcomeContent : List Char :=
  "// Welcome to the collaborative code editor!\n// Start typing to begin...\n".toList

/-- The function `createRoom(roomId, name)` (`src/server/index.js:62-78`); the
`rooms.set` is performed by the caller of this pure room constructor. -/
def createRoom (roomId : RoomId) (name : String) (now : Nat) : Room :=
  { id := roomId
    name := name
    document := { content := welcomeContent, language := "javascript" }
    users := []
    operations := []
    chat := []
    createdAt := now
    lastActivity := now }

/-- The display color drawn at join time:
`hsl(Math.floor(Math.random() * 360), 70%, 60%)` with the random draw
`Math.floor(Math.random() * 360)` modelled as `eColor % 360`. -/
def hslColor (eColor : Nat) : String :=
  "hsl(" ++ toString (eColor % 360) ++ ", 70%, 60%)"

/-- Lines 107-115 of `src/server/index.js`: on join, leave the previous room
if the connection already has a session — `socket.leave(prev.roomId)`, then,
if the previous room still exists, delete the user from it and emit
`user-left` to that room's other members.  No cleanup timer is scheduled and
`lastActivity` is not touched on this path. -/
def leavePrevious (st : ServerState) (sock : ConnId) : ServerState × List Emit :=
  match alookup sock st.userSessions with
  | none => (st, [])
  | some prevSession =>
    let st' := { st with joined := aerase sock st.joined }
    match alookup prevSession.roomId st'.rooms with
    | none => (st', [])
    | some prevRoom =>
      ({ st' with
          rooms := ainsert prevSession.roomId
            { prevRoom with users := aerase sock prevRoom.users } st'.rooms },
       [⟨EmitTarget.toRoomExcept prevSession.roomId sock, EventKind.userLeft⟩])

/-- Lines 117-120 of `src/server/index.js`: create the room if it does not
exist, with name `Room ${roomId.slice(0, 8)}`. -/
def ensureRoom (st : ServerState) (roomId : RoomId) (now : Nat) : ServerState :=
  if (alookup roomId st.rooms).isSome then st
  else { st with
    rooms := ainsert roomId (createRoom roomId ("Room " ++ roomId.take 8) now) st.rooms }

/-- The user object built on join (`src/server/index.js:125-131`): name falls
back to `User ${Math.floor(Math.random() * 1000)}` when `userName` is falsy,
the color is a fresh random hsl draw, cursor starts at the origin. -/
def joinUser (sock : ConnId) (userName : String) (now eName eColor : Nat) : User :=
  { id := sock
    name := if userName = "" then "User " ++ toString (eName % 1000) else userName
    color := hslColor eColor
    cursor := { line := 0, column := 0 }
    joinedAt := now }

/-- The `join-room` handler (`src/server/index.js:104-150`).  `eName` and
`eColor` are the two `Math.random()` draws (for the default user name and the
color), `now` is `Date.now()` / `new Date()`. -/
def handleJoinRoom (st : ServerState) (sock : ConnId) (roomId : RoomId) (userName : String)
    (now eName eColor : Nat) : ServerState × List Emit :=
  let p := leavePrevious st sock
  let st2 := ensureRoom p.1 roomId now
  match alookup roomId st2.rooms with
  | none => (st2, p.2)
  | some room =>
    let user : User := joinUser sock userName now eName eColor
    let room' := { room with users := ainsert sock user room.users, lastActivity := now }
    ({ st2 with
        rooms := ainsert roomId room' st2.rooms
        userSessions := ainsert sock { roomId := roomId, user := user } st2.userSessions
        joined := ainsert sock roomId st2.joined },
     p.2 ++ [⟨EmitTarget.toSocket sock, EventKind.roomJoined⟩,
             ⟨EmitTarget.toRoomExcept roomId sock, EventKind.userJoined⟩])

/-- The `document-operation` handler (`src/server/index.js:153-189`).  `d`
holds the constructor data of the `DocumentOperation` built from the message. -/
def handleDocumentOperation (st : ServerState) (sock : ConnId) (d : Operation) (now : Nat) :
    ServerState × List Emit :=
  match alookup sock st.userSessions with
  | none => (st, [])
  | some session =>
    match alookup session.roomId st.rooms with
    | none => (st, [])
    | some room =>
      let room' := { room with
        document := { room.document with content := applyOp room.document.content d }
        operations := room.operations ++ [d]
        lastActivity := now }
      ({ st with rooms := ainsert session.roomId room' st.rooms },
       [⟨EmitTarget.toRoomExcept session.roomId sock, EventKind.documentOperation⟩])

/-- The `cursor-position` handler (`src/server/index.js:192-211`).  The JS code
mutates the session's user object in place and re-`set`s it in `room.users`;
the aliasing is modelled by updating the user in both maps.  Note: this
handler does not touch `room.lastActivity`. -/
def handleCursorPosition (st : ServerState) (sock : ConnId) (cur : Cursor) :
    ServerState × List Emit :=
  match alookup sock st.userSessions with
  | none => (st, [])
  | some session =>
    match alookup session.roomId st.rooms with
    | none => (st, [])
    | some room =>
      let user' := { session.user with cursor := cur }
      let room' := { room with users := ainsert sock user' room.users }
      ({ st with
          rooms := ainsert session.roomId room' st.rooms
          userSessions := ainsert sock { session with user := user' } st.userSessions },
       [⟨EmitTarget.toRoomExcept session.roomId sock, EventKind.cursorPosition⟩])

/-- The `language-change` handler (`src/server/index.js:214-227`); broadcast via
`io.to(roomId)`, i.e. including the sender. -/
def handleLanguageChange (st : ServerState) (sock : ConnId) (lang : String) (now : Nat) :
    ServerState × List Emit :=
  match alookup sock st.userSessions with
  | none => (st, [])
  | some session =>
    match alookup session.roomId st.rooms with
    | none => (st, [])
    | some room =>
      let room' := { room with
        document := { room.document with language := lang }
        lastActivity := now }
      ({ st with rooms := ainsert session.roomId room' st.rooms },
       [⟨EmitTarget.toRoomAll session.roomId, EventKind.languageChange⟩])

/-- The `chat-message` handler (`src/server/index.js:230-252`); `freshId` is the
`uuidv4()` draw, `now` is the timestamp; broadcast via `io.to(roomId)`. -/
def handleChatMessage (st : ServerState) (sock : ConnId) (message : String)
    (freshId : String) (now : Nat) : ServerState × List Emit :=
  match alookup sock st.userSessions with
  | none => (st, [])
  | some session =>
    match alookup session.roomId st.rooms with
    | none => (st, [])
    | some room =>
      let msg : ChatMessage :=
        { id := freshId
          userId := sock
          userName := session.user.name
          userColor := session.user.color
          content := message
          timestamp := now }
      let room' := { room with chat := room.chat ++ [msg], lastActivity := now }
      ({ st with rooms := ainsert session.roomId room' st.rooms },
       [⟨EmitTarget.toRoomAll session.roomId, EventKind.chatMessage⟩])

/-- The `disconnect` handler (`src/server/index.js:277-305`).  socket.io itself
removes the socket from its rooms; the handler removes the user from its room,
emits `user-left`, schedules a cleanup timeout when the room became empty, and
deletes the session. -/
def handleDisconnect (st : ServerState) (sock : ConnId) (now : Nat) :
    ServerState × List Emit :=
  let st0 := { st with joined := aerase sock st.joined }
  match alookup sock st0.userSessions with
  | none => (st0, [])
  | some session =>
    let base := { st0 with userSessions := aerase sock st0.userSessions }
    match alookup session.roomId st0.rooms with
    | none => (base, [])
    | some room =>
      let room' := { room with users := aerase sock room.users, lastActivity := now }
      let st1 := { base with rooms := ainsert session.roomId room' base.rooms }
      let st2 :=
        if room'.users.isEmpty then { st1 with timers := st1.timers ++ [session.roomId] }
        else st1
      (st2, [⟨EmitTarget.toRoomExcept session.roomId sock, EventKind.userLeft⟩])

/-- The body of the cleanup timeout (`src/server/index.js:294-299`): when it
fires, the room is deleted only if it is still present and still has zero
users. -/
def cleanupFire (st : ServerState) (roomId : RoomId) : ServerState :=
  let st0 := { st with timers := st.timers.erase roomId }
  match alookup roomId st0.rooms with
  | none => st0
  | some room =>
    if room.users.isEmpty then { st0 with rooms := aerase roomId st0.rooms } else st0

/-- Whether an emit is delivered to connection `c`, given the socket.io room
membership `joined`. -/
def delivers (joined : List (ConnId × RoomId)) (e : Emit) (c : ConnId) : Bool :=
  match e.target with
  | EmitTarget.toSocket c' => decide (c = c')
  | EmitTarget.toRoomExcept r s => decide (alookup c joined = some r) && decide (c ≠ s)
  | EmitTarget.toRoomAll r => decide (alookup c joined = some r)

/-- The client-visible events driving the server, with the effectful draws
(`Date.now()`, `Math.random()`, `uuidv4()`) as explicit data, plus the firing
of a scheduled cleanup timeout. -/
inductive Event
  | joinRoom (sock : ConnId) (roomId : RoomId) (userName : String) (now eName eColor : Nat)
  | docOp (sock : ConnId) (d : Operation) (now : Nat)
  | cursorMove (sock : ConnId) (cur : Cursor)
  | langChange (sock : ConnId) (lang : String) (now : Nat)
  | chatMsg (sock : ConnId) (message freshId : String) (now : Nat)
  | disconnect (sock : ConnId) (now : Nat)
  | timerFire (roomId : RoomId)

/-- One step of the server: the state reached after handling one event. -/
def step (e : Event) (st : ServerState) : ServerState :=
  match e with
  | Event.joinRoom sock roomId userName now eName eColor =>
      (handleJoinRoom st sock roomId userName now eName eColor).1
  | Event.docOp sock d now => (handleDocumentOperation st sock d now).1
  | Event.cursorMove sock cur => (handleCursorPosition st sock cur).1
  | Event.langChange sock lang now => (handleLanguageChange st sock lang now).1
  | Event.chatMsg sock message freshId now => (handleChatMessage st sock message freshId now).1
  | Event.disconnect sock now => (handleDisconnect st sock now).1
  | Event.timerFire roomId => cleanupFire st roomId

/-- States reachable from the initial empty state by any event sequence. -/
inductive Reachable : ServerState → Prop
  | init : Reachable initialState
  | next (st : ServerState) (e : Event) : Reachable st → Reachable (step e st)

/-- Mutual consistency of a session map and a room directory: every session
points to a present room whose user map holds the connection, and every user
map entry is backed by a session naming that room. -/
def InvMaps (sess : List (ConnId × Session)) (rooms : List (RoomId × Room)) : Prop :=
  (∀ c s, alookup c sess = some s →
    ∃ room, alookup s.roomId rooms = some room ∧ (alookup c room.users).isSome = true) ∧
  (∀ r room c u, alookup r rooms = some room → alookup c room.users = some u →
    ∃ s, alookup c sess = some s ∧ s.roomId = r)

/-- The server-state invariant: the session map and room directory are
mutually consistent. -/
def Inv (st : ServerState) : Prop :=
  InvMaps st.userSessions st.rooms

/-- The consistency invariant weakened at one connection: it holds for every
connection other than `sock`, and `sock` sits in no room's user map.  This is
the intermediate shape during a join, after the prior-room leave and before
the re-registration. -/
def InvExceptMaps (sock : ConnId) (sess : List (ConnId × Session))
    (rooms : List (RoomId × Room)) : Prop :=
  (∀ c s, c ≠ sock → alookup c sess = some s →
    ∃ room, alookup s.roomId rooms = some room ∧ (alookup c room.users).isSome = true) ∧
  (∀ r room c u, alookup r rooms = some room → alookup c room.users = some u →
    c ≠ sock ∧ ∃ s, alookup c sess = some s ∧ s.roomId = r)

/-- The weakened invariant on a server state. -/
def InvExcept (sock : ConnId) (st : ServerState) : Prop :=
  InvExceptMaps sock st.userSessions st.rooms

/-- A concrete user for witness states. -/
def userA : User :=
  { id := "a", name := "Alice", color := "hsl(1, 70%, 60%)"
    cursor := { line := 0, column := 0 }, joinedAt := 0 }

/-- A second concrete user for witness states. -/
def userB : User :=
  { id := "b", name := "Bob", color := "hsl(2, 70%, 60%)"
    cursor := { line := 0, column := 0 }, joinedAt := 0 }

/-- A ghost user for the dangling-session witness. -/
def ghostUser : User :=
  { id := "a", name := "Alice", color := "c"
    cursor := { line := 0, column := 0 }, joinedAt := 0 }

/-- State with a dangling session (room directory empty). -/
def ghostState : ServerState :=
  { rooms := []
    userSessions := [("a", { roomId := "r1", user := ghostUser })]
    joined := []
    timers := [] }

/-- A room holding only `userA`, with a stale `lastActivity` of 5. -/
def soloRoom : Room :=
  { id := "r1"
    name := "Room r1"
    document := { content := welcomeContent, language := "javascript" }
    users := [("a", userA)]
    operations := []
    chat := []
    createdAt := 0
    lastActivity := 5 }

/-- State where connection `a` is the sole member of room `r1`. -/
def soloState : ServerState :=
  { rooms := [("r1", soloRoom)]
    userSessions := [("a", { roomId := "r1", user := userA })]
    joined := [("a", "r1")]
    timers := [] }

/-- A room holding `userA` and `userB`. -/
def twoUserRoom : Room :=
  { id := "r1"
    name := "Room r1"
    document := { content := welcomeContent, language := "javascript" }
    users := [("a", userA), ("b", userB)]
    operations := []
    chat := []
    createdAt := 0
    lastActivity := 0 }

/-- State where connections `a` and `b` are both members of room `r1`. -/
def twoUserState : ServerState :=
  { rooms := [("r1", twoUserRoom)]
    userSessions := [("a", { roomId := "r1", user := userA }),
                     ("b", { roomId := "r1", user := userB })]
    joined := [("a", "r1"), ("b", "r1")]
    timers := [] }

/-- An empty room with a pending cleanup timer. -/
def emptyRoomState : ServerState :=
  { rooms := [("r1", createRoom "r1" "Room r1" 0)]
    userSessions := []
    joined := []
    timers := ["r1"] }

theorem alookup_ainsert_self {β : Type} (k : String) (v : β) (m : List (String × β)) :
    alookup k (ainsert k v m) = some v := by
  induction m with
  | nil => simp [ainsert, alookup]
  | cons hd tl ih =>
    obtain ⟨k', v'⟩ := hd
    by_cases h : k = k' <;> simp [ainsert, alookup, h, ih]

theorem alookup_ainsert_ne {β : Type} {k k' : String} (v : β) (m : List (String × β))
    (h : k ≠ k') : alookup k (ainsert k' v m) = alookup k m := by
  induction m with
  | nil => simp [ainsert, alookup, h]
  | cons hd tl ih =>
    obtain ⟨k₀, v₀⟩ := hd
    by_cases h0 : k' = k₀
    · subst h0
      simp [ainsert, alookup, h]
    · by_cases h1 : k = k₀ <;> simp [ainsert, alookup, h0, h1, ih]

theorem alookup_aerase_self {β : Type} (k : String) (m : List (String × β)) :
    alookup k (aerase k m) = none := by
  induction m with
  | nil => simp [aerase, alookup]
  | cons hd tl ih =>
    obtain ⟨k', v'⟩ := hd
    by_cases h : k = k'
    · subst h
      simpa [aerase] using ih
    · simp [aerase, alookup, h, ih]

theorem alookup_aerase_ne {β : Type} {k k' : String} (m : List (String × β))
    (h : k ≠ k') : alookup k (aerase k' m) = alookup k m := by
  induction m with
  | nil => simp [aerase, alookup]
  | cons hd tl ih =>
    obtain ⟨k₀, v₀⟩ := hd
    by_cases h0 : k' = k₀
    · subst h0
      simp [aerase, alookup, h, ih]
    · by_cases h1 : k = k₀ <;> simp [aerase, alookup, h0, h1, ih]

theorem alookup_ainsert {β : Type} (k k' : String) (v : β) (m : List (String × β)) :
    alookup k (ainsert k' v m) = if k = k' then some v else alookup k m := by
  by_cases h : k = k'
  · subst h
    simp [alookup_ainsert_self]
  · simp [h, alookup_ainsert_ne v m h]

theorem alookup_aerase {β : Type} (k k' : String) (m : List (String × β)) :
    alookup k (aerase k' m) = if k = k' then none else alookup k m := by
  by_cases h : k = k'
  · subst h
    simp [alookup_aerase_self]
  · simp [h, alookup_aerase_ne m h]

theorem take_min_length (l : List Char) (p : Nat) : l.take (min p l.length) = l.take p := by
  rcases le_total p l.length with h | h
  · rw [min_eq_left h]
  · rw [min_eq_right h, List.take_length, List.take_of_length_le h]

theorem drop_min_length (l : List Char) (p : Nat) : l.drop (min p l.length) = l.drop p := by
  rcases le_total p l.length with h | h
  · rw [min_eq_left h]
  · rw [min_eq_right h, List.drop_length, List.drop_eq_nil_of_le h]

/-- CLAIM C1.  Applying an operation is the sequential string edit of §4.1:
an insert splits the content at the operation's position clamped to the content
length (a position past the end appends at the end) and joins the halves around
the text; a delete removes `length` units from `position` with the deletion
window clamped to `[0, length(content)]`.  The application function is total:
no error is raised for out-of-range positions. -/
theorem C1_apply_is_clamped_edit (content : List Char) (op : Operation) :
    applyOp content op = specApply content op := by
  cases op with
  | mk ty pos text len =>
    cases ty with
    | insert =>
      simp only [applyOp, specApply]
      rw [take_min_length, drop_min_length]
    | delete =>
      simp only [applyOp, specApply]
      rw [take_min_length, drop_min_length]

/-- CLAIM C7.  `transformOperation A B` returns `B` with only its position
changed: when `A.position ≤ B.position` the position is shifted forward by
`A.content.length` if `A` is an insert, and backward by
`min(A.length, B.position - A.position)` — never below `A.position` — if `A`
is a delete; when `A.position > B.position`, `B` is returned unchanged. -/
theorem C7_transform_shifts_position (op1 op2 : Operation) :
    (op1.position ≤ op2.position →
      (transformOperation op1 op2).type = op2.type ∧
      (transformOperation op1 op2).content = op2.content ∧
      (transformOperation op1 op2).length = op2.length ∧
      (op1.type = OpType.insert →
        (transformOperation op1 op2).position = op2.position + op1.content.length) ∧
      (op1.type = OpType.delete →
        (transformOperation op1 op2).position
            = op2.position - min op1.length (op2.position - op1.position) ∧
        op1.position ≤ (transformOperation op1 op2).position)) ∧
    (op2.position < op1.position → transformOperation op1 op2 = op2) := by
  constructor
  · intro hle
    cases h1 : op1.type with
    | insert =>
      have hT : transformOperation op1 op2 =
          { type := op2.type
            position := op2.position + op1.content.length
            content := op2.content
            length := op2.length } := by
        simp [transformOperation, hle, h1]
      rw [hT]
      exact ⟨rfl, rfl, rfl, fun _ => rfl, fun h => by cases h⟩
    | delete =>
      have hT : transformOperation op1 op2 =
          { type := op2.type
            position := max (op2.position - op1.length) op1.position
            content := op2.content
            length := op2.length } := by
        simp [transformOperation, hle, h1]
      rw [hT]
      refine ⟨rfl, rfl, rfl, ?_, ?_⟩
      · intro h
        cases h
      · intro _
        refine ⟨?_, le_max_right _ _⟩
        show max (op2.position - op1.length) op1.position
          = op2.position - min op1.length (op2.position - op1.position)
        rcases le_total op1.length (op2.position - op1.position) with h | h
        · rw [min_eq_left h, max_eq_left (by omega)]
        · rw [min_eq_right h, max_eq_right (by omega)]
          omega
  · intro hlt
    have hn : ¬ op1.position ≤ op2.position := by omega
    simp [transformOperation, hn]

/-- Witness for C7: the theorem applied at a concrete pair of operations,
discharging the `A.position ≤ B.position` hypothesis. -/
theorem C7_transform_witness :
    (transformOperation
        { type := OpType.delete, position := 1, content := [], length := 5 }
        { type := OpType.insert, position := 3, content := ['x'], length := 0 }).position
      = 3 - min 5 (3 - 1) ∧
    (1 : Nat) ≤ (transformOperation
        { type := OpType.delete, position := 1, content := [], length := 5 }
        { type := OpType.insert, position := 3, content := ['x'], length := 0 }).position :=
  ((C7_transform_shifts_position
      { type := OpType.delete, position := 1, content := [], length := 5 }
      { type := OpType.insert, position := 3, content := ['x'], length := 0 }).1
    (by decide)).2.2.2.2 rfl

/-- After `ensureRoom`, the target room is present. -/
theorem ensureRoom_isSome (st : ServerState) (roomId : RoomId) (now : Nat) :
    (alookup roomId (ensureRoom st roomId now).rooms).isSome = true := by
  unfold ensureRoom
  cases h : (alookup roomId st.rooms).isSome with
  | true => simp [h]
  | false => simp [h, alookup_ainsert_self]

/-- `ensureRoom` either leaves the map untouched at `r`, or `r` is the target
room, previously absent, now the fresh room. -/
theorem ensureRoom_lookup (st : ServerState) (roomId : RoomId) (now : Nat) (r : RoomId) :
    alookup r (ensureRoom st roomId now).rooms = alookup r st.rooms ∨
    (r = roomId ∧ alookup roomId st.rooms = none ∧
      alookup r (ensureRoom st roomId now).rooms
        = some (createRoom roomId ("Room " ++ roomId.take 8) now)) := by
  unfold ensureRoom
  cases h : alookup roomId st.rooms with
  | some room => simp [h]
  | none =>
    by_cases hr : r = roomId
    · subst hr
      right
      simp [h, alookup_ainsert_self]
    · left
      simp [h, alookup_ainsert _ _ _ _, hr]

/-- `ensureRoom` changes no field other than `rooms`. -/
theorem ensureRoom_fields (st : ServerState) (roomId : RoomId) (now : Nat) :
    (ensureRoom st roomId now).userSessions = st.userSessions ∧
    (ensureRoom st roomId now).joined = st.joined ∧
    (ensureRoom st roomId now).timers = st.timers := by
  unfold ensureRoom
  by_cases h : (alookup roomId st.rooms).isSome <;> simp [h]

/-- `leavePrevious` either leaves the room map untouched at `r`, or the room at
`r` only had the leaving user erased from its user map. -/
theorem leavePrevious_lookup (st : ServerState) (sock : ConnId) (r : RoomId) :
    alookup r (leavePrevious st sock).1.rooms = alookup r st.rooms ∨
    (∃ room, alookup r st.rooms = some room ∧
      alookup r (leavePrevious st sock).1.rooms
        = some { room with users := aerase sock room.users }) := by
  unfold leavePrevious
  cases hs : alookup sock st.userSessions with
  | none => simp
  | some prev =>
    cases hr : alookup prev.roomId st.rooms with
    | none => simp [hr]
    | some prevRoom =>
      by_cases hpr : r = prev.roomId
      · subst hpr
        right
        exact ⟨prevRoom, hr, by simp [hr, alookup_ainsert_self]⟩
      · left
        simp [hr, alookup_ainsert, hpr]

/-- `leavePrevious` does not change the session map or the timer list. -/
theorem leavePrevious_sessions_timers (st : ServerState) (sock : ConnId) :
    (leavePrevious st sock).1.userSessions = st.userSessions ∧
    (leavePrevious st sock).1.timers = st.timers := by
  unfold leavePrevious
  cases hs : alookup sock st.userSessions with
  | none => simp
  | some prev =>
    cases hr : alookup prev.roomId st.rooms with
    | none => simp [hr]
    | some prevRoom => simp [hr]

/-- `leavePrevious` does not change the socket.io membership of other sockets. -/
theorem leavePrevious_joined_ne (st : ServerState) (sock c : ConnId) (h : c ≠ sock) :
    alookup c (leavePrevious st sock).1.joined = alookup c st.joined := by
  unfold leavePrevious
  cases hs : alookup sock st.userSessions with
  | none => simp
  | some prev =>
    cases hr : alookup prev.roomId st.rooms with
    | none => simp [hr, alookup_aerase_ne _ h]
    | some prevRoom => simp [hr, alookup_aerase_ne _ h]

/-- When the connection has a session whose room exists, `leavePrevious`
erases the user from that room, leaves socket.io membership of the leaver
removed, and emits exactly one `user-left` to that room excluding the leaver. -/
theorem leavePrevious_eq_of (st : ServerState) (sock : ConnId) (prev : Session)
    (prevRoom : Room) (h1 : alookup sock st.userSessions = some prev)
    (h2 : alookup prev.roomId st.rooms = some prevRoom) :
    leavePrevious st sock =
      ({ st with
          joined := aerase sock st.joined
          rooms := ainsert prev.roomId
            { prevRoom with users := aerase sock prevRoom.users } st.rooms },
       [⟨EmitTarget.toRoomExcept prev.roomId sock, EventKind.userLeft⟩]) := by
  simp [leavePrevious, h1, h2]

/-- Unfolding of the join handler: the target room (present after the
create-if-absent step) receives the fresh user, the session and socket.io
membership are rebound, timers are untouched, and the emits are the
prior-leave emits followed by `room-joined` to the joiner and `user-joined`
to the others. -/
theorem handleJoinRoom_eq (st : ServerState) (sock : ConnId) (roomId : RoomId)
    (userName : String) (now eName eColor : Nat) :
    ∃ room, alookup roomId (ensureRoom (leavePrevious st sock).1 roomId now).rooms = some room ∧
      handleJoinRoom st sock roomId userName now eName eColor =
        ({ rooms := ainsert roomId
              { room with
                  users := ainsert sock (joinUser sock userName now eName eColor) room.users
                  lastActivity := now }
              (ensureRoom (leavePrevious st sock).1 roomId now).rooms
           userSessions := ainsert sock
              { roomId := roomId, user := joinUser sock userName now eName eColor }
              st.userSessions
           joined := ainsert sock roomId (leavePrevious st sock).1.joined
           timers := st.timers },
         (leavePrevious st sock).2 ++
           [⟨EmitTarget.toSocket sock, EventKind.roomJoined⟩,
            ⟨EmitTarget.toRoomExcept roomId sock, EventKind.userJoined⟩]) := by
  have hsome := ensureRoom_isSome (leavePrevious st sock).1 roomId now
  cases hm : alookup roomId (ensureRoom (leavePrevious st sock).1 roomId now).rooms with
  | none =>
    rw [hm] at hsome
    cases hsome
  | some room =>
    refine ⟨room, rfl, ?_⟩
    have hE := ensureRoom_fields (leavePrevious st sock).1 roomId now
    have hL := leavePrevious_sessions_timers st sock
    simp only [handleJoinRoom, hm]
    rw [hE.1, hE.2.1, hE.2.2, hL.1, hL.2]

/-- CLAIM C3.  A join for an id absent from the room directory creates the
room with the canned welcome content, the default language `javascript`, and
an empty chat; a join for a present id keeps that room's document and chat
intact; and the set of room ids after the join is exactly the previous set
plus the joined id (so a present id gains no second room). -/
theorem C3_lazy_idempotent_creation (st : ServerState) (sock : ConnId) (roomId : RoomId)
    (userName : String) (now eName eColor : Nat) :
    (alookup roomId st.rooms = none →
      ∃ room', alookup roomId
          (handleJoinRoom st sock roomId userName now eName eColor).1.rooms = some room' ∧
        room'.document.content = welcomeContent ∧
        room'.document.language = "javascript" ∧
        room'.chat = []) ∧
    (∀ room, alookup roomId st.rooms = some room →
      ∃ room', alookup roomId
          (handleJoinRoom st sock roomId userName now eName eColor).1.rooms = some room' ∧
        room'.document = room.document ∧
        room'.chat = room.chat) ∧
    (∀ r, (alookup r (handleJoinRoom st sock roomId userName now eName eColor).1.rooms).isSome
            = true
          ↔ (r = roomId ∨ (alookup r st.rooms).isSome = true)) := by
  obtain ⟨room, hm, heq⟩ := handleJoinRoom_eq st sock roomId userName now eName eColor
  refine ⟨?_, ?_, ?_⟩
  · intro habs
    have h1 : alookup roomId (leavePrevious st sock).1.rooms = none := by
      rcases leavePrevious_lookup st sock roomId with h | ⟨room0, h0, _⟩
      · rw [h, habs]
      · rw [habs] at h0
        cases h0
    have h2 : room = createRoom roomId ("Room " ++ roomId.take 8) now := by
      rcases ensureRoom_lookup (leavePrevious st sock).1 roomId now roomId with h | ⟨_, _, h3⟩
      · rw [h, h1] at hm
        cases hm
      · rw [h3] at hm
        exact (Option.some.inj hm).symm
    subst h2
    rw [heq]
    exact ⟨_, alookup_ainsert_self _ _ _, rfl, rfl, rfl⟩
  · intro room₀ hpres
    have h1 : ∃ roomMid, alookup roomId (leavePrevious st sock).1.rooms = some roomMid ∧
        roomMid.document = room₀.document ∧ roomMid.chat = room₀.chat := by
      rcases leavePrevious_lookup st sock roomId with h | ⟨room1, h0, h2⟩
      · exact ⟨room₀, by rw [h, hpres], rfl, rfl⟩
      · rw [hpres] at h0
        obtain rfl := Option.some.inj h0
        exact ⟨_, h2, rfl, rfl⟩
    obtain ⟨roomMid, hmid, hdoc, hchat⟩ := h1
    have h2 : room = roomMid := by
      rcases ensureRoom_lookup (leavePrevious st sock).1 roomId now roomId with h | ⟨_, habs, _⟩
      · rw [h, hmid] at hm
        exact (Option.some.inj hm).symm
      · rw [habs] at hmid
        cases hmid
    subst h2
    rw [heq]
    exact ⟨_, alookup_ainsert_self _ _ _, hdoc, hchat⟩
  · intro r
    rw [heq]
    by_cases hr : r = roomId
    · subst hr
      simp [alookup_ainsert_self]
    · have hs2 : alookup r (ensureRoom (leavePrevious st sock).1 roomId now).rooms
          = alookup r (leavePrevious st sock).1.rooms := by
        rcases ensureRoom_lookup (leavePrevious st sock).1 roomId now r with h | ⟨h, _, _⟩
        · exact h
        · exact absurd h hr
      have hs1 : (alookup r (leavePrevious st sock).1.rooms).isSome
          = (alookup r st.rooms).isSome := by
        rcases leavePrevious_lookup st sock r with h | ⟨room0, h0, h2⟩
        · rw [h]
        · simp [h0, h2]
      simp only [alookup_ainsert, if_neg hr]
      rw [hs2, hs1]
      simp [hr]

/-- Witness for C3: joining a fresh directory creates the welcome room. -/
theorem C3_creation_witness :
    ∃ room', alookup "r1" (handleJoinRoom initialState "a" "r1" "Alice" 0 0 0).1.rooms
        = some room' ∧
      room'.document.content = welcomeContent ∧
      room'.document.language = "javascript" ∧
      room'.chat = [] :=
  (C3_lazy_idempotent_creation initialState "a" "r1" "Alice" 0 0 0).1 rfl

/-- CLAIM C8.  A document-operation, cursor-position, language-change, or
chat-message from a connection with no active session, or whose session names
a room absent from the room directory, is silently ignored: the state is
unchanged and nothing is emitted. -/
theorem C8_unknown_session_or_room_ignored (st : ServerState) (sock : ConnId)
    (d : Operation) (now : Nat) (cur : Cursor) (lang message freshId : String) :
    (alookup sock st.userSessions = none →
      handleDocumentOperation st sock d now = (st, []) ∧
      handleCursorPosition st sock cur = (st, []) ∧
      handleLanguageChange st sock lang now = (st, []) ∧
      handleChatMessage st sock message freshId now = (st, [])) ∧
    (∀ s, alookup sock st.userSessions = some s → alookup s.roomId st.rooms = none →
      handleDocumentOperation st sock d now = (st, []) ∧
      handleCursorPosition st sock cur = (st, []) ∧
      handleLanguageChange st sock lang now = (st, []) ∧
      handleChatMessage st sock message freshId now = (st, [])) := by
  constructor
  · intro h
    refine ⟨?_, ?_, ?_, ?_⟩ <;>
      simp [handleDocumentOperation, handleCursorPosition, handleLanguageChange,
        handleChatMessage, h]
  · intro s hs hr
    refine ⟨?_, ?_, ?_, ?_⟩ <;>
      simp [handleDocumentOperation, handleCursorPosition, handleLanguageChange,
        handleChatMessage, hs, hr]

/-- Witness for C8: both guard cases at concrete inputs. -/
theorem C8_unknown_session_or_room_witness :
    (handleDocumentOperation initialState "a"
        { type := OpType.insert, position := 0, content := ['x'], length := 0 } 1
      = (initialState, []) ∧
     handleCursorPosition initialState "a" { line := 1, column := 2 } = (initialState, []) ∧
     handleLanguageChange initialState "a" "python" 1 = (initialState, []) ∧
     handleChatMessage initialState "a" "hi" "id1" 1 = (initialState, [])) ∧
    (handleDocumentOperation ghostState "a"
        { type := OpType.insert, position := 0, content := ['x'], length := 0 } 1
      = (ghostState, []) ∧
     handleCursorPosition ghostState "a" { line := 1, column := 2 } = (ghostState, []) ∧
     handleLanguageChange ghostState "a" "python" 1 = (ghostState, []) ∧
     handleChatMessage ghostState "a" "hi" "id1" 1 = (ghostState, [])) :=
  ⟨(C8_unknown_session_or_room_ignored initialState "a"
      { type := OpType.insert, position := 0, content := ['x'], length := 0 } 1
      { line := 1, column := 2 } "python" "hi" "id1").1 rfl,
   (C8_unknown_session_or_room_ignored ghostState "a"
      { type := OpType.insert, position := 0, content := ['x'], length := 0 } 1
      { line := 1, column := 2 } "python" "hi" "id1").2
     { roomId := "r1", user := ghostUser } rfl rfl⟩

/-- CLAIM C4.  When a scheduled cleanup fires, the room is deleted only if it
is still present and still has zero users: a present room whose user map is
empty is removed; a present room with users is left exactly as it was; an
absent id leaves the directory unchanged. -/
theorem C4_cleanup_rechecks_at_fire_time (st : ServerState) (roomId : RoomId) :
    (∀ room, alookup roomId st.rooms = some room →
      (room.users.isEmpty = true →
        alookup roomId (cleanupFire st roomId).rooms = none) ∧
      (room.users.isEmpty = false →
        (cleanupFire st roomId).rooms = st.rooms)) ∧
    (alookup roomId st.rooms = none → (cleanupFire st roomId).rooms = st.rooms) := by
  constructor
  · intro room hr
    constructor
    · intro he
      simp [cleanupFire, hr, he, alookup_aerase_self]
    · intro he
      simp [cleanupFire, hr, he]
  · intro hr
    simp [cleanupFire, hr]

/-- Witness for C4: a present, empty room is removed when the timer fires. -/
theorem C4_cleanup_witness :
    alookup "r1" (cleanupFire emptyRoomState "r1").rooms = none :=
  ((C4_cleanup_rechecks_at_fire_time emptyRoomState "r1").1
    (createRoom "r1" "Room r1" 0) rfl).1 rfl

/-- Every emit of `leavePrevious` is a `user-left` to a room excluding the
leaver. -/
theorem leavePrevious_emits (st : ServerState) (sock : ConnId) :
    ∀ e ∈ (leavePrevious st sock).2,
      ∃ r, e = Emit.mk (EmitTarget.toRoomExcept r sock) EventKind.userLeft := by
  unfold leavePrevious
  cases hs : alookup sock st.userSessions with
  | none => simp
  | some prev =>
    cases hr : alookup prev.roomId st.rooms with
    | none => simp [hr]
    | some prevRoom =>
      intro e he
      simp [hr] at he
      exact ⟨prev.roomId, he⟩

/-- CLAIM C2.  Per-room broadcast policy: document-operation, cursor-position,
user-joined, and user-left events are never delivered back to the originating
connection but are delivered to every other member of the room, while
language-change and chat-message events are delivered to every member of the
room including the sender.  (The `room-joined` snapshot, sent via
`socket.emit`, goes only to the joiner.) -/
theorem C2_broadcast_inclusion_exclusion :
    (∀ st sock d now e, e ∈ (handleDocumentOperation st sock d now).2 →
      delivers (handleDocumentOperation st sock d now).1.joined e sock = false) ∧
    (∀ st sock cur e, e ∈ (handleCursorPosition st sock cur).2 →
      delivers (handleCursorPosition st sock cur).1.joined e sock = false) ∧
    (∀ st sock now e, e ∈ (handleDisconnect st sock now).2 →
      delivers (handleDisconnect st sock now).1.joined e sock = false) ∧
    (∀ st sock roomId userName now eName eColor e,
      e ∈ (handleJoinRoom st sock roomId userName now eName eColor).2 →
      e.target = EmitTarget.toSocket sock ∨
      delivers (handleJoinRoom st sock roomId userName now eName eColor).1.joined e sock
        = false) ∧
    (∀ st sock s room d now c, alookup sock st.userSessions = some s →
      alookup s.roomId st.rooms = some room → c ≠ sock →
      alookup c st.joined = some s.roomId →
      ∀ e ∈ (handleDocumentOperation st sock d now).2,
        delivers (handleDocumentOperation st sock d now).1.joined e c = true) ∧
    (∀ st sock s room cur c, alookup sock st.userSessions = some s →
      alookup s.roomId st.rooms = some room → c ≠ sock →
      alookup c st.joined = some s.roomId →
      ∀ e ∈ (handleCursorPosition st sock cur).2,
        delivers (handleCursorPosition st sock cur).1.joined e c = true) ∧
    (∀ st sock s room now c, alookup sock st.userSessions = some s →
      alookup s.roomId st.rooms = some room → c ≠ sock →
      alookup c st.joined = some s.roomId →
      ∀ e ∈ (handleDisconnect st sock now).2,
        delivers (handleDisconnect st sock now).1.joined e c = true) ∧
    (∀ st sock roomId userName now eName eColor c, c ≠ sock →
      alookup c st.joined = some roomId →
      delivers (handleJoinRoom st sock roomId userName now eName eColor).1.joined
        (Emit.mk (EmitTarget.toRoomExcept roomId sock) EventKind.userJoined) c = true ∧
      Emit.mk (EmitTarget.toRoomExcept roomId sock) EventKind.userJoined
        ∈ (handleJoinRoom st sock roomId userName now eName eColor).2) ∧
    (∀ st sock s room lang now c, alookup sock st.userSessions = some s →
      alookup s.roomId st.rooms = some room →
      alookup c st.joined = some s.roomId →
      ∀ e ∈ (handleLanguageChange st sock lang now).2,
        delivers (handleLanguageChange st sock lang now).1.joined e c = true) ∧
    (∀ st sock s room message freshId now c, alookup sock st.userSessions = some s →
      alookup s.roomId st.rooms = some room →
      alookup c st.joined = some s.roomId →
      ∀ e ∈ (handleChatMessage st sock message freshId now).2,
        delivers (handleChatMessage st sock message freshId now).1.joined e c = true) := by
  refine ⟨?_, ?_, ?_, ?_, ?_, ?_, ?_, ?_, ?_, ?_⟩
  · intro st sock d now e he
    cases h1 : alookup sock st.userSessions with
    | none => simp [handleDocumentOperation, h1] at he
    | some s =>
      cases h2 : alookup s.roomId st.rooms with
      | none => simp [handleDocumentOperation, h1, h2] at he
      | some room =>
        simp [handleDocumentOperation, h1, h2] at he
        subst he
        simp [delivers]
  · intro st sock cur e he
    cases h1 : alookup sock st.userSessions with
    | none => simp [handleCursorPosition, h1] at he
    | some s =>
      cases h2 : alookup s.roomId st.rooms with
      | none => simp [handleCursorPosition, h1, h2] at he
      | some room =>
        simp [handleCursorPosition, h1, h2] at he
        subst he
        simp [delivers]
  · intro st sock now e he
    cases h1 : alookup sock st.userSessions with
    | none => simp [handleDisconnect, h1] at he
    | some s =>
      cases h2 : alookup s.roomId st.rooms with
      | none => simp [handleDisconnect, h1, h2] at he
      | some room =>
        simp [handleDisconnect, h1, h2] at he
        subst he
        simp [delivers]
  · intro st sock roomId userName now eName eColor e he
    obtain ⟨room, hm, heq⟩ := handleJoinRoom_eq st sock roomId userName now eName eColor
    rw [heq] at he
    simp only [List.mem_append, List.mem_cons, List.mem_singleton,
      List.not_mem_nil, or_false] at he
    rcases he with he | he | he
    · right
      obtain ⟨r, rfl⟩ := leavePrevious_emits st sock e he
      simp [delivers]
    · left
      rw [he]
    · right
      subst he
      simp [delivers]
  · intro st sock s room d now c h1 h2 hc hj e he
    simp [handleDocumentOperation, h1, h2] at he
    subst he
    simp [handleDocumentOperation, h1, h2, delivers, hc, hj]
  · intro st sock s room cur c h1 h2 hc hj e he
    simp [handleCursorPosition, h1, h2] at he
    subst he
    simp [handleCursorPosition, h1, h2, delivers, hc, hj]
  · intro st sock s room now c h1 h2 hc hj e he
    simp [handleDisconnect, h1, h2] at he
    subst he
    cases h3 : (aerase sock room.users).isEmpty <;>
      simp [handleDisconnect, h1, h2, h3, delivers, hc, hj, alookup_aerase_ne _ hc]
  · intro st sock roomId userName now eName eColor c hc hj
    obtain ⟨room, hm, heq⟩ := handleJoinRoom_eq st sock roomId userName now eName eColor
    constructor
    · rw [heq]
      simp [delivers, alookup_ainsert, hc, leavePrevious_joined_ne st sock c hc, hj]
    · rw [heq]
      simp
  · intro st sock s room lang now c h1 h2 hj e he
    simp [handleLanguageChange, h1, h2] at he
    subst he
    simp [handleLanguageChange, h1, h2, delivers, hj]
  · intro st sock s room message freshId now c h1 h2 hj e he
    simp [handleChatMessage, h1, h2] at he
    subst he
    simp [handleChatMessage, h1, h2, delivers, hj]

/-- Witness for C2: in the two-user room, a document operation from `a` is not
delivered back to `a` but is delivered to `b`, and a chat message from `a` is
delivered back to `a`. -/
theorem C2_broadcast_witness :
    delivers (handleDocumentOperation twoUserState "a"
        { type := OpType.insert, position := 0, content := [], length := 0 } 1).1.joined
      (Emit.mk (EmitTarget.toRoomExcept "r1" "a") EventKind.documentOperation) "a" = false ∧
    delivers (handleDocumentOperation twoUserState "a"
        { type := OpType.insert, position := 0, content := [], length := 0 } 1).1.joined
      (Emit.mk (EmitTarget.toRoomExcept "r1" "a") EventKind.documentOperation) "b" = true ∧
    delivers (handleChatMessage twoUserState "a" "hi" "id1" 1).1.joined
      (Emit.mk (EmitTarget.toRoomAll "r1") EventKind.chatMessage) "a" = true :=
  ⟨C2_broadcast_inclusion_exclusion.1 twoUserState "a"
      { type := OpType.insert, position := 0, content := [], length := 0 } 1
      (Emit.mk (EmitTarget.toRoomExcept "r1" "a") EventKind.documentOperation) (by decide),
   C2_broadcast_inclusion_exclusion.2.2.2.2.1 twoUserState "a"
      { roomId := "r1", user := userA } twoUserRoom
      { type := OpType.insert, position := 0, content := [], length := 0 } 1 "b"
      rfl rfl (by decide) rfl
      (Emit.mk (EmitTarget.toRoomExcept "r1" "a") EventKind.documentOperation) (by decide),
   C2_broadcast_inclusion_exclusion.2.2.2.2.2.2.2.2.2 twoUserState "a"
      { roomId := "r1", user := userA } twoUserRoom "hi" "id1" 1 "a" rfl rfl rfl
      (Emit.mk (EmitTarget.toRoomAll "r1") EventKind.chatMessage) (by decide)⟩

/-- COUNTEREXAMPLE to C5 as stated.  Connection `a` is the sole user of room
`r1`; it joins room `r2`.  The prior room's user count reaches zero, yet no
cleanup is scheduled: the pending-timer list stays empty.  (The join-room
prior-leave path, `src/server/index.js:107-115`, has no `users.size === 0`
check, unlike the disconnect handler.) -/
theorem C5_counterexample :
    (alookup "r1" (handleJoinRoom soloState "a" "r2" "Alice" 1 2 3).1.rooms).map Room.users
      = some [] ∧
    (handleJoinRoom soloState "a" "r2" "Alice" 1 2 3).1.timers = [] :=
  ⟨rfl, rfl⟩

/-- CLAIM C5, amended.  A join from a connection with a session first performs
a partial leave of the prior room: the prior user is removed from that room's
user map and `user-left` is emitted to that room's remaining members — but no
cleanup is scheduled even if the prior room's user count thereby reaches zero
(the pending-timer list is unchanged). -/
theorem C5_prior_leave_without_cleanup (st : ServerState) (sock : ConnId) (roomId : RoomId)
    (userName : String) (now eName eColor : Nat) (prev : Session) (prevRoom : Room)
    (h1 : alookup sock st.userSessions = some prev)
    (h2 : alookup prev.roomId st.rooms = some prevRoom)
    (h3 : prev.roomId ≠ roomId) :
    alookup prev.roomId (handleJoinRoom st sock roomId userName now eName eColor).1.rooms
      = some { prevRoom with users := aerase sock prevRoom.users } ∧
    Emit.mk (EmitTarget.toRoomExcept prev.roomId sock) EventKind.userLeft
      ∈ (handleJoinRoom st sock roomId userName now eName eColor).2 ∧
    (handleJoinRoom st sock roomId userName now eName eColor).1.timers = st.timers := by
  obtain ⟨room, hm, heq⟩ := handleJoinRoom_eq st sock roomId userName now eName eColor
  have hLP := leavePrevious_eq_of st sock prev prevRoom h1 h2
  have hs2 : alookup prev.roomId (ensureRoom (leavePrevious st sock).1 roomId now).rooms
      = alookup prev.roomId (leavePrevious st sock).1.rooms := by
    rcases ensureRoom_lookup (leavePrevious st sock).1 roomId now prev.roomId with h | ⟨h, _, _⟩
    · exact h
    · exact absurd h h3
  refine ⟨?_, ?_, ?_⟩
  · rw [heq]
    simp only [alookup_ainsert, if_neg h3]
    rw [hs2, hLP]
    simp [alookup_ainsert_self]
  · rw [heq, hLP]
    simp
  · rw [heq]

/-- Witness for the amended C5 at a concrete state. -/
theorem C5_prior_leave_witness :
    alookup "r1" (handleJoinRoom soloState "a" "r2" "Alice" 1 2 3).1.rooms
      = some { soloRoom with users := aerase "a" soloRoom.users } ∧
    Emit.mk (EmitTarget.toRoomExcept "r1" "a") EventKind.userLeft
      ∈ (handleJoinRoom soloState "a" "r2" "Alice" 1 2 3).2 ∧
    (handleJoinRoom soloState "a" "r2" "Alice" 1 2 3).1.timers = soloState.timers :=
  C5_prior_leave_without_cleanup soloState "a" "r2" "Alice" 1 2 3
    { roomId := "r1", user := userA } soloRoom rfl rfl (by decide)

/-- COUNTEREXAMPLE to C6 as stated.  In a room whose `lastActivity` is the
stale value 5, a cursor-position update genuinely mutates state (the stored
cursor becomes `(3, 4)`), yet `lastActivity` remains 5: the cursor handler
(`src/server/index.js:192-211`) never touches the timestamp (it reads no
clock at all). -/
theorem C6_counterexample :
    (alookup "r1" (handleCursorPosition soloState "a" { line := 3, column := 4 }).1.rooms).map
        Room.lastActivity = some 5 ∧
    (alookup "r1" (handleCursorPosition soloState "a" { line := 3, column := 4 }).1.rooms).map
        (fun r => (alookup "a" r.users).map User.cursor)
      = some (some { line := 3, column := 4 }) ∧
    soloRoom.lastActivity = 5 :=
  ⟨rfl, rfl, rfl⟩

/-- CLAIM C6, amended.  Of the four mutating requests, applyOperation,
changeLanguage, and postChatMessage set the room's `lastActivity` to the
current time, but updateCursor leaves `lastActivity` unchanged. -/
theorem C6_last_activity_amended (st : ServerState) (sock : ConnId) (s : Session)
    (room : Room) (d : Operation) (now : Nat) (lang message freshId : String) (cur : Cursor)
    (h1 : alookup sock st.userSessions = some s)
    (h2 : alookup s.roomId st.rooms = some room) :
    (alookup s.roomId (handleDocumentOperation st sock d now).1.rooms).map Room.lastActivity
      = some now ∧
    (alookup s.roomId (handleLanguageChange st sock lang now).1.rooms).map Room.lastActivity
      = some now ∧
    (alookup s.roomId (handleChatMessage st sock message freshId now).1.rooms).map
        Room.lastActivity = some now ∧
    (alookup s.roomId (handleCursorPosition st sock cur).1.rooms).map Room.lastActivity
      = some room.lastActivity := by
  refine ⟨?_, ?_, ?_, ?_⟩ <;>
    simp [handleDocumentOperation, handleLanguageChange, handleChatMessage,
      handleCursorPosition, h1, h2, alookup_ainsert_self]

/-- Witness for the amended C6 at a concrete state. -/
theorem C6_last_activity_witness :
    (alookup "r1" (handleDocumentOperation twoUserState "a"
        { type := OpType.insert, position := 0, content := [], length := 0 } 7).1.rooms).map
      Room.lastActivity = some 7 ∧
    (alookup "r1" (handleLanguageChange twoUserState "a" "python" 7).1.rooms).map
      Room.lastActivity = some 7 ∧
    (alookup "r1" (handleChatMessage twoUserState "a" "hi" "id1" 7).1.rooms).map
      Room.lastActivity = some 7 ∧
    (alookup "r1" (handleCursorPosition twoUserState "a" { line := 1, column := 1 }).1.rooms).map
      Room.lastActivity = some twoUserRoom.lastActivity :=
  C6_last_activity_amended twoUserState "a" { roomId := "r1", user := userA } twoUserRoom
    { type := OpType.insert, position := 0, content := [], length := 0 } 7
    "python" "hi" "id1" { line := 1, column := 1 } rfl rfl

/-- COUNTEREXAMPLE to C9 as stated.  Two runs of the join operation for the
same connection, same (absent) prior session, same room, name, and clock —
differing only in the `Math.random()` color draw — assign different colors:
the color is random, not a deterministic function of the connection and
session. -/
theorem C9_color_counterexample :
    (alookup "a" (handleJoinRoom initialState "a" "r1" "Alice" 0 0 0).1.userSessions).map
        (fun ses => ses.user.color)
      ≠ (alookup "a" (handleJoinRoom initialState "a" "r1" "Alice" 0 0 1).1.userSessions).map
        (fun ses => ses.user.color) := by
  decide

/-- CLAIM C9, amended.  The display color is drawn from the join-time random
draw (`hsl(⌊r·360⌋, 70%, 60%)`) — fixed by the draw, not by the connection —
and it then stays constant for the session's lifetime: the cursor-position
handler, the only operation that rewrites the stored user, preserves it in
both the session map and the room's user map. -/
theorem C9_color_stable_amended :
    (∀ st sock roomId userName now eName eColor,
      (alookup sock
          (handleJoinRoom st sock roomId userName now eName eColor).1.userSessions).map
        (fun ses => ses.user.color) = some (hslColor eColor)) ∧
    (∀ st sock s room cur, alookup sock st.userSessions = some s →
      alookup s.roomId st.rooms = some room →
      (alookup sock (handleCursorPosition st sock cur).1.userSessions).map
          (fun ses => ses.user.color) = some s.user.color ∧
      (alookup s.roomId (handleCursorPosition st sock cur).1.rooms).map
          (fun r => (alookup sock r.users).map (fun u => u.color))
        = some (some s.user.color)) := by
  constructor
  · intro st sock roomId userName now eName eColor
    obtain ⟨room, hm, heq⟩ := handleJoinRoom_eq st sock roomId userName now eName eColor
    rw [heq]
    simp [alookup_ainsert_self, joinUser]
  · intro st sock s room cur h1 h2
    constructor <;> simp [handleCursorPosition, h1, h2, alookup_ainsert_self]

theorem alookup_isEmpty {β : Type} (m : List (String × β)) (h : m.isEmpty = true)
    (c : String) : alookup c m = none := by
  cases m with
  | nil => rfl
  | cons a l => simp [List.isEmpty] at h

/-- Updating a present room without touching its user map preserves the
invariant. -/
theorem invMaps_set_room (sess : List (ConnId × Session)) (rooms : List (RoomId × Room))
    (rid : RoomId) (room room' : Room) (hr : alookup rid rooms = some room)
    (hu : room'.users = room.users) (h : InvMaps sess rooms) :
    InvMaps sess (ainsert rid room' rooms) := by
  obtain ⟨hF, hB⟩ := h
  constructor
  · intro c s hs
    obtain ⟨room0, h0, hmem⟩ := hF c s hs
    by_cases hrid : s.roomId = rid
    · refine ⟨room', ?_, ?_⟩
      · rw [hrid]
        exact alookup_ainsert_self _ _ _
      · rw [hrid] at h0
        rw [h0] at hr
        obtain rfl := Option.some.inj hr
        rw [hu]
        exact hmem
    · refine ⟨room0, ?_, hmem⟩
      rw [alookup_ainsert, if_neg hrid]
      exact h0
  · intro r room1 c u hr1 hu1
    rw [alookup_ainsert] at hr1
    by_cases hrid : r = rid
    · rw [if_pos hrid] at hr1
      obtain rfl := Option.some.inj hr1
      rw [hu] at hu1
      subst hrid
      exact hB _ room c u hr hu1
    · rw [if_neg hrid] at hr1
      exact hB r room1 c u hr1 hu1

/-- Overwriting one user's session and its user-map entry in its own room
preserves the invariant. -/
theorem invMaps_reinsert_user (sess : List (ConnId × Session))
    (rooms : List (RoomId × Room)) (sock : ConnId) (s : Session) (room : Room) (u' : User)
    (h1 : alookup sock sess = some s) (h2 : alookup s.roomId rooms = some room)
    (h : InvMaps sess rooms) :
    InvMaps (ainsert sock { s with user := u' } sess)
      (ainsert s.roomId { room with users := ainsert sock u' room.users } rooms) := by
  obtain ⟨hF, hB⟩ := h
  constructor
  · intro c s0 hs0
    rw [alookup_ainsert] at hs0
    by_cases hc : c = sock
    · rw [if_pos hc] at hs0
      obtain rfl := Option.some.inj hs0
      refine ⟨_, alookup_ainsert_self _ _ _, ?_⟩
      rw [hc, alookup_ainsert_self]
      rfl
    · rw [if_neg hc] at hs0
      obtain ⟨room0, h0, hmem⟩ := hF c s0 hs0
      by_cases hrid : s0.roomId = s.roomId
      · rw [hrid] at h0 ⊢
        rw [h0] at h2
        obtain rfl := Option.some.inj h2
        refine ⟨_, alookup_ainsert_self _ _ _, ?_⟩
        rw [alookup_ainsert, if_neg hc]
        exact hmem
      · refine ⟨room0, ?_, hmem⟩
        rw [alookup_ainsert, if_neg hrid]
        exact h0
  · intro r room1 c u hr1 hu1
    rw [alookup_ainsert] at hr1
    by_cases hrid : r = s.roomId
    · rw [if_pos hrid] at hr1
      obtain rfl := Option.some.inj hr1
      rw [alookup_ainsert] at hu1
      by_cases hc : c = sock
      · refine ⟨{ s with user := u' }, ?_, hrid.symm⟩
        rw [hc, alookup_ainsert_self]
      · rw [if_neg hc] at hu1
        obtain ⟨s0, hs0, hr0⟩ := hB s.roomId room c u h2 hu1
        refine ⟨s0, ?_, hr0.trans hrid.symm⟩
        rw [alookup_ainsert, if_neg hc]
        exact hs0
    · rw [if_neg hrid] at hr1
      obtain ⟨s0, hs0, hr0⟩ := hB r room1 c u hr1 hu1
      by_cases hc : c = sock
      · rw [hc, h1] at hs0
        obtain rfl := Option.some.inj hs0
        exact absurd hr0.symm hrid
      · refine ⟨s0, ?_, hr0⟩
        rw [alookup_ainsert, if_neg hc]
        exact hs0

/-- Removing one connection's session together with its user-map entry
preserves the invariant. -/
theorem invMaps_disconnect (sess : List (ConnId × Session))
    (rooms : List (RoomId × Room)) (sock : ConnId) (s : Session) (room room' : Room)
    (h1 : alookup sock sess = some s) (h2 : alookup s.roomId rooms = some room)
    (hu : room'.users = aerase sock room.users) (h : InvMaps sess rooms) :
    InvMaps (aerase sock sess) (ainsert s.roomId room' rooms) := by
  obtain ⟨hF, hB⟩ := h
  constructor
  · intro c s0 hs0
    rw [alookup_aerase] at hs0
    by_cases hc : c = sock
    · rw [if_pos hc] at hs0
      exact Option.noConfusion hs0
    · rw [if_neg hc] at hs0
      obtain ⟨room0, h0, hmem⟩ := hF c s0 hs0
      by_cases hrid : s0.roomId = s.roomId
      · rw [hrid] at h0 ⊢
        rw [h0] at h2
        obtain rfl := Option.some.inj h2
        refine ⟨room', alookup_ainsert_self _ _ _, ?_⟩
        rw [hu, alookup_aerase, if_neg hc]
        exact hmem
      · refine ⟨room0, ?_, hmem⟩
        rw [alookup_ainsert, if_neg hrid]
        exact h0
  · intro r room1 c u hr1 hu1
    rw [alookup_ainsert] at hr1
    by_cases hrid : r = s.roomId
    · rw [if_pos hrid] at hr1
      obtain rfl := Option.some.inj hr1
      rw [hu, alookup_aerase] at hu1
      by_cases hc : c = sock
      · rw [if_pos hc] at hu1
        exact Option.noConfusion hu1
      · rw [if_neg hc] at hu1
        obtain ⟨s0, hs0, hr0⟩ := hB s.roomId room c u h2 hu1
        refine ⟨s0, ?_, hr0.trans hrid.symm⟩
        rw [alookup_aerase, if_neg hc]
        exact hs0
    · rw [if_neg hrid] at hr1
      obtain ⟨s0, hs0, hr0⟩ := hB r room1 c u hr1 hu1
      by_cases hc : c = sock
      · rw [hc, h1] at hs0
        obtain rfl := Option.some.inj hs0
        exact absurd hr0.symm hrid
      · refine ⟨s0, ?_, hr0⟩
        rw [alookup_aerase, if_neg hc]
        exact hs0

/-- A session whose room is absent contradicts the invariant, so erasing it
trivially preserves the invariant. -/
theorem invMaps_erase_dangling (sess : List (ConnId × Session))
    (rooms : List (RoomId × Room)) (sock : ConnId) (prev : Session)
    (h1 : alookup sock sess = some prev) (h2 : alookup prev.roomId rooms = none)
    (h : InvMaps sess rooms) : InvMaps (aerase sock sess) rooms := by
  obtain ⟨hF, hB⟩ := h
  obtain ⟨room0, h0, _⟩ := hF sock prev h1
  rw [h2] at h0
  exact Option.noConfusion h0

/-- Deleting a present room with an empty user map preserves the invariant. -/
theorem invMaps_remove_room (sess : List (ConnId × Session))
    (rooms : List (RoomId × Room)) (rid : RoomId) (room : Room)
    (h2 : alookup rid rooms = some room) (h3 : room.users.isEmpty = true)
    (h : InvMaps sess rooms) : InvMaps sess (aerase rid rooms) := by
  obtain ⟨hF, hB⟩ := h
  constructor
  · intro c s0 hs0
    obtain ⟨room0, h0, hmem⟩ := hF c s0 hs0
    by_cases hrid : s0.roomId = rid
    · rw [hrid] at h0
      rw [h0] at h2
      obtain rfl := Option.some.inj h2
      rw [alookup_isEmpty _ h3 c] at hmem
      exact Bool.noConfusion hmem
    · refine ⟨room0, ?_, hmem⟩
      rw [alookup_aerase, if_neg hrid]
      exact h0
  · intro r room1 c u hr1 hu1
    rw [alookup_aerase] at hr1
    by_cases hrid : r = rid
    · rw [if_pos hrid] at hr1
      exact Option.noConfusion hr1
    · rw [if_neg hrid] at hr1
      exact hB r room1 c u hr1 hu1

/-- With no session for `sock`, the invariant already is the weakened one. -/
theorem invExceptMaps_no_session (sess : List (ConnId × Session))
    (rooms : List (RoomId × Room)) (sock : ConnId) (h1 : alookup sock sess = none)
    (h : InvMaps sess rooms) : InvExceptMaps sock sess rooms := by
  obtain ⟨hF, hB⟩ := h
  constructor
  · intro c s hc hs
    exact hF c s hs
  · intro r room c u hr hu
    obtain ⟨s0, hs0, hr0⟩ := hB r room c u hr hu
    refine ⟨?_, s0, hs0, hr0⟩
    intro heq
    rw [heq, h1] at hs0
    exact Option.noConfusion hs0

/-- A session naming an absent room contradicts the invariant, so the
weakened invariant holds trivially. -/
theorem invExceptMaps_dangling (sess : List (ConnId × Session))
    (rooms : List (RoomId × Room)) (sock : ConnId) (prev : Session)
    (h1 : alookup sock sess = some prev) (h2 : alookup prev.roomId rooms = none)
    (h : InvMaps sess rooms) : InvExceptMaps sock sess rooms := by
  obtain ⟨hF, hB⟩ := h
  obtain ⟨room0, h0, _⟩ := hF sock prev h1
  rw [h2] at h0
  exact Option.noConfusion h0

/-- Erasing `sock` from the user map of its own room yields the weakened
invariant (the session of `sock` still dangles, every other connection is
untouched). -/
theorem invExceptMaps_erase_user (sess : List (ConnId × Session))
    (rooms : List (RoomId × Room)) (sock : ConnId) (prev : Session)
    (prevRoom room' : Room) (h1 : alookup sock sess = some prev)
    (h2 : alookup prev.roomId rooms = some prevRoom)
    (hu : room'.users = aerase sock prevRoom.users) (h : InvMaps sess rooms) :
    InvExceptMaps sock sess (ainsert prev.roomId room' rooms) := by
  obtain ⟨hF, hB⟩ := h
  constructor
  · intro c s hc hs
    obtain ⟨room0, h0, hmem⟩ := hF c s hs
    by_cases hrid : s.roomId = prev.roomId
    · rw [hrid] at h0 ⊢
      rw [h0] at h2
      obtain rfl := Option.some.inj h2
      refine ⟨room', alookup_ainsert_self _ _ _, ?_⟩
      rw [hu, alookup_aerase, if_neg hc]
      exact hmem
    · refine ⟨room0, ?_, hmem⟩
      rw [alookup_ainsert, if_neg hrid]
      exact h0
  · intro r room c u hr hu1
    rw [alookup_ainsert] at hr
    by_cases hrid : r = prev.roomId
    · rw [if_pos hrid] at hr
      obtain rfl := Option.some.inj hr
      rw [hu, alookup_aerase] at hu1
      by_cases hc : c = sock
      · rw [if_pos hc] at hu1
        exact Option.noConfusion hu1
      · rw [if_neg hc] at hu1
        obtain ⟨s0, hs0, hr0⟩ := hB prev.roomId prevRoom c u h2 hu1
        exact ⟨hc, s0, hs0, hr0.trans hrid.symm⟩
    · rw [if_neg hrid] at hr
      obtain ⟨s0, hs0, hr0⟩ := hB r room c u hr hu1
      refine ⟨?_, s0, hs0, hr0⟩
      intro heq
      rw [heq, h1] at hs0
      obtain rfl := Option.some.inj hs0
      exact hrid hr0.symm

/-- Adding a fresh empty room preserves the weakened invariant. -/
theorem invExceptMaps_add_empty_room (sess : List (ConnId × Session))
    (rooms : List (RoomId × Room)) (sock : ConnId) (rid : RoomId) (roomNew : Room)
    (habs : alookup rid rooms = none) (hempty : roomNew.users = [])
    (h : InvExceptMaps sock sess rooms) :
    InvExceptMaps sock sess (ainsert rid roomNew rooms) := by
  obtain ⟨hF, hB⟩ := h
  constructor
  · intro c s hc hs
    obtain ⟨room0, h0, hmem⟩ := hF c s hc hs
    by_cases hrid : s.roomId = rid
    · rw [hrid, habs] at h0
      exact Option.noConfusion h0
    · refine ⟨room0, ?_, hmem⟩
      rw [alookup_ainsert, if_neg hrid]
      exact h0
  · intro r room c u hr hu
    rw [alookup_ainsert] at hr
    by_cases hrid : r = rid
    · rw [if_pos hrid] at hr
      obtain rfl := Option.some.inj hr
      rw [hempty] at hu
      exact Option.noConfusion hu
    · rw [if_neg hrid] at hr
      exact hB r room c u hr hu

/-- Registering the joining connection in the target room and in the session
map restores the full invariant from the weakened one. -/
theorem invMaps_join (sess : List (ConnId × Session)) (rooms : List (RoomId × Room))
    (sock : ConnId) (rid : RoomId) (room room' : Room) (user : User)
    (hm : alookup rid rooms = some room) (hu : room'.users = ainsert sock user room.users)
    (hX : InvExceptMaps sock sess rooms) :
    InvMaps (ainsert sock { roomId := rid, user := user } sess)
      (ainsert rid room' rooms) := by
  obtain ⟨hF, hB⟩ := hX
  constructor
  · intro c s0 hs0
    rw [alookup_ainsert] at hs0
    by_cases hc : c = sock
    · rw [if_pos hc] at hs0
      obtain rfl := Option.some.inj hs0
      refine ⟨room', alookup_ainsert_self _ _ _, ?_⟩
      rw [hu, hc, alookup_ainsert_self]
      rfl
    · rw [if_neg hc] at hs0
      obtain ⟨room0, h0, hmem⟩ := hF c s0 hc hs0
      by_cases hrid : s0.roomId = rid
      · rw [hrid] at h0 ⊢
        rw [h0] at hm
        obtain rfl := Option.some.inj hm
        refine ⟨room', alookup_ainsert_self _ _ _, ?_⟩
        rw [hu, alookup_ainsert, if_neg hc]
        exact hmem
      · refine ⟨room0, ?_, hmem⟩
        rw [alookup_ainsert, if_neg hrid]
        exact h0
  · intro r room1 c u hr1 hu1
    rw [alookup_ainsert] at hr1
    by_cases hrid : r = rid
    · rw [if_pos hrid] at hr1
      obtain rfl := Option.some.inj hr1
      rw [hu, alookup_ainsert] at hu1
      by_cases hc : c = sock
      · refine ⟨{ roomId := rid, user := user }, ?_, hrid.symm⟩
        rw [hc, alookup_ainsert_self]
      · rw [if_neg hc] at hu1
        obtain ⟨hc2, s0, hs0, hr0⟩ := hB rid room c u hm hu1
        refine ⟨s0, ?_, hr0.trans hrid.symm⟩
        rw [alookup_ainsert, if_neg hc]
        exact hs0
    · rw [if_neg hrid] at hr1
      obtain ⟨hc2, s0, hs0, hr0⟩ := hB r room1 c u hr1 hu1
      refine ⟨s0, ?_, hr0⟩
      rw [alookup_ainsert, if_neg hc2]
      exact hs0

/-- The document-operation handler preserves the invariant. -/
theorem inv_docOp (st : ServerState) (sock : ConnId) (d : Operation) (now : Nat)
    (hInv : Inv st) : Inv (handleDocumentOperation st sock d now).1 := by
  cases h1 : alookup sock st.userSessions with
  | none =>
    have he : (handleDocumentOperation st sock d now).1 = st := by
      simp [handleDocumentOperation, h1]
    rw [he]
    exact hInv
  | some s =>
    cases h2 : alookup s.roomId st.rooms with
    | none =>
      have he : (handleDocumentOperation st sock d now).1 = st := by
        simp [handleDocumentOperation, h1, h2]
      rw [he]
      exact hInv
    | some room =>
      have he : (handleDocumentOperation st sock d now).1 = { st with
          rooms := ainsert s.roomId
            { room with
                document := { room.document with content := applyOp room.document.content d }
                operations := room.operations ++ [d]
                lastActivity := now } st.rooms } := by
        simp [handleDocumentOperation, h1, h2]
      rw [he]
      exact invMaps_set_room st.userSessions st.rooms s.roomId room _ h2 rfl hInv

/-- The language-change handler preserves the invariant. -/
theorem inv_lang (st : ServerState) (sock : ConnId) (lang : String) (now : Nat)
    (hInv : Inv st) : Inv (handleLanguageChange st sock lang now).1 := by
  cases h1 : alookup sock st.userSessions with
  | none =>
    have he : (handleLanguageChange st sock lang now).1 = st := by
      simp [handleLanguageChange, h1]
    rw [he]
    exact hInv
  | some s =>
    cases h2 : alookup s.roomId st.rooms with
    | none =>
      have he : (handleLanguageChange st sock lang now).1 = st := by
        simp [handleLanguageChange, h1, h2]
      rw [he]
      exact hInv
    | some room =>
      have he : (handleLanguageChange st sock lang now).1 = { st with
          rooms := ainsert s.roomId
            { room with
                document := { room.document with language := lang }
                lastActivity := now } st.rooms } := by
        simp [handleLanguageChange, h1, h2]
      rw [he]
      exact invMaps_set_room st.userSessions st.rooms s.roomId room _ h2 rfl hInv

/-- The chat-message handler preserves the invariant. -/
theorem inv_chat (st : ServerState) (sock : ConnId) (message freshId : String) (now : Nat)
    (hInv : Inv st) : Inv (handleChatMessage st sock message freshId now).1 := by
  cases h1 : alookup sock st.userSessions with
  | none =>
    have he : (handleChatMessage st sock message freshId now).1 = st := by
      simp [handleChatMessage, h1]
    rw [he]
    exact hInv
  | some s =>
    cases h2 : alookup s.roomId st.rooms with
    | none =>
      have he : (handleChatMessage st sock message freshId now).1 = st := by
        simp [handleChatMessage, h1, h2]
      rw [he]
      exact hInv
    | some room =>
      have he : (handleChatMessage st sock message freshId now).1 = { st with
          rooms := ainsert s.roomId
            { room with
                chat := room.chat ++
                  [ChatMessage.mk freshId sock s.user.name s.user.color message now]
                lastActivity := now } st.rooms } := by
        simp [handleChatMessage, h1, h2]
      rw [he]
      exact invMaps_set_room st.userSessions st.rooms s.roomId room _ h2 rfl hInv

/-- The cursor-position handler preserves the invariant. -/
theorem inv_cursor (st : ServerState) (sock : ConnId) (cur : Cursor)
    (hInv : Inv st) : Inv (handleCursorPosition st sock cur).1 := by
  cases h1 : alookup sock st.userSessions with
  | none =>
    have he : (handleCursorPosition st sock cur).1 = st := by
      simp [handleCursorPosition, h1]
    rw [he]
    exact hInv
  | some s =>
    cases h2 : alookup s.roomId st.rooms with
    | none =>
      have he : (handleCursorPosition st sock cur).1 = st := by
        simp [handleCursorPosition, h1, h2]
      rw [he]
      exact hInv
    | some room =>
      have he : (handleCursorPosition st sock cur).1 = { st with
          rooms := ainsert s.roomId
            { room with users := ainsert sock { s.user with cursor := cur } room.users }
            st.rooms
          userSessions := ainsert sock { s with user := { s.user with cursor := cur } }
            st.userSessions } := by
        simp [handleCursorPosition, h1, h2]
      rw [he]
      exact invMaps_reinsert_user st.userSessions st.rooms sock s room
        { s.user with cursor := cur } h1 h2 hInv

/-- The disconnect handler preserves the invariant. -/
theorem inv_disconnect (st : ServerState) (sock : ConnId) (now : Nat)
    (hInv : Inv st) : Inv (handleDisconnect st sock now).1 := by
  cases h1 : alookup sock st.userSessions with
  | none =>
    have he : (handleDisconnect st sock now).1 = { st with joined := aerase sock st.joined } := by
      simp [handleDisconnect, h1]
    rw [he]
    exact hInv
  | some s =>
    cases h2 : alookup s.roomId st.rooms with
    | none =>
      have he : (handleDisconnect st sock now).1 = { st with
          joined := aerase sock st.joined
          userSessions := aerase sock st.userSessions } := by
        simp [handleDisconnect, h1, h2]
      rw [he]
      exact invMaps_erase_dangling st.userSessions st.rooms sock s h1 h2 hInv
    | some room =>
      cases h3 : (aerase sock room.users).isEmpty with
      | true =>
        have he : (handleDisconnect st sock now).1 = { st with
            rooms := ainsert s.roomId
              { room with users := aerase sock room.users, lastActivity := now } st.rooms
            userSessions := aerase sock st.userSessions
            joined := aerase sock st.joined
            timers := st.timers ++ [s.roomId] } := by
          simp [handleDisconnect, h1, h2, h3]
        rw [he]
        exact invMaps_disconnect st.userSessions st.rooms sock s room _ h1 h2 rfl hInv
      | false =>
        have he : (handleDisconnect st sock now).1 = { st with
            rooms := ainsert s.roomId
              { room with users := aerase sock room.users, lastActivity := now } st.rooms
            userSessions := aerase sock st.userSessions
            joined := aerase sock st.joined } := by
          simp [handleDisconnect, h1, h2, h3]
        rw [he]
        exact invMaps_disconnect st.userSessions st.rooms sock s room _ h1 h2 rfl hInv

/-- The cleanup timeout preserves the invariant. -/
theorem inv_cleanup (st : ServerState) (roomId : RoomId)
    (hInv : Inv st) : Inv (cleanupFire st roomId) := by
  cases h2 : alookup roomId st.rooms with
  | none =>
    have he : cleanupFire st roomId = { st with timers := st.timers.erase roomId } := by
      simp [cleanupFire, h2]
    rw [he]
    exact hInv
  | some room =>
    cases h3 : room.users.isEmpty with
    | false =>
      have he : cleanupFire st roomId = { st with timers := st.timers.erase roomId } := by
        simp [cleanupFire, h2, h3]
      rw [he]
      exact hInv
    | true =>
      have he : cleanupFire st roomId = { st with
          timers := st.timers.erase roomId
          rooms := aerase roomId st.rooms } := by
        simp [cleanupFire, h2, h3]
      rw [he]
      exact invMaps_remove_room st.userSessions st.rooms roomId room h2 h3 hInv

/-- After the prior-room leave of a join, the weakened invariant holds. -/
theorem invExcept_leavePrevious (st : ServerState) (sock : ConnId)
    (hInv : Inv st) : InvExcept sock (leavePrevious st sock).1 := by
  cases h1 : alookup sock st.userSessions with
  | none =>
    have he : (leavePrevious st sock).1 = st := by
      simp [leavePrevious, h1]
    rw [he]
    exact invExceptMaps_no_session st.userSessions st.rooms sock h1 hInv
  | some prev =>
    cases h2 : alookup prev.roomId st.rooms with
    | none =>
      have he : (leavePrevious st sock).1 = { st with joined := aerase sock st.joined } := by
        simp [leavePrevious, h1, h2]
      rw [he]
      exact invExceptMaps_dangling st.userSessions st.rooms sock prev h1 h2 hInv
    | some prevRoom =>
      have he : (leavePrevious st sock).1 = { st with
          joined := aerase sock st.joined
          rooms := ainsert prev.roomId
            { prevRoom with users := aerase sock prevRoom.users } st.rooms } := by
        simp [leavePrevious, h1, h2]
      rw [he]
      exact invExceptMaps_erase_user st.userSessions st.rooms sock prev prevRoom _
        h1 h2 rfl hInv

/-- The create-if-absent step preserves the weakened invariant. -/
theorem invExcept_ensureRoom (st : ServerState) (roomId : RoomId) (now : Nat)
    (sock : ConnId) (h : InvExcept sock st) : InvExcept sock (ensureRoom st roomId now) := by
  cases hp : alookup roomId st.rooms with
  | some room =>
    have he : ensureRoom st roomId now = st := by
      simp [ensureRoom, hp]
    rw [he]
    exact h
  | none =>
    have he : ensureRoom st roomId now = { st with
        rooms := ainsert roomId
          (createRoom roomId ("Room " ++ roomId.take 8) now) st.rooms } := by
      simp [ensureRoom, hp]
    rw [he]
    exact invExceptMaps_add_empty_room st.userSessions st.rooms sock roomId _ hp rfl h

/-- The join handler preserves the invariant. -/
theorem inv_join (st : ServerState) (sock : ConnId) (roomId : RoomId) (userName : String)
    (now eName eColor : Nat) (hInv : Inv st) :
    Inv (handleJoinRoom st sock roomId userName now eName eColor).1 := by
  obtain ⟨room, hm, heq⟩ := handleJoinRoom_eq st sock roomId userName now eName eColor
  have hX : InvExcept sock (ensureRoom (leavePrevious st sock).1 roomId now) :=
    invExcept_ensureRoom (leavePrevious st sock).1 roomId now sock
      (invExcept_leavePrevious st sock hInv)
  have hsess : (ensureRoom (leavePrevious st sock).1 roomId now).userSessions
      = st.userSessions := by
    rw [(ensureRoom_fields _ _ _).1, (leavePrevious_sessions_timers st sock).1]
  have hX' : InvExceptMaps sock st.userSessions
      (ensureRoom (leavePrevious st sock).1 roomId now).rooms := by
    rw [← hsess]
    exact hX
  rw [heq]
  exact invMaps_join st.userSessions
    (ensureRoom (leavePrevious st sock).1 roomId now).rooms sock roomId room _
    (joinUser sock userName now eName eColor) hm rfl hX'
/-- CLAIM C10.  In every state reachable from the initial empty state by any
event sequence (joins, operations, cursor moves, language changes, chat,
disconnects, cleanup-timer fires), the session map and the room directory are
mutually consistent: every session's roomId names a present room whose user
map contains the session's connection, and every connection in any room's
user map has a session naming that room. -/
theorem C10_session_room_consistency (st : ServerState) (h : Reachable st) : Inv st := by
  induction h with
  | init =>
    constructor
    · intro c s hs
      exact Option.noConfusion hs
    · intro r room c u hr hu
      exact Option.noConfusion hr
  | next st1 e hR ih =>
    cases e with
    | joinRoom sock roomId userName now eName eColor =>
      exact inv_join st1 sock roomId userName now eName eColor ih
    | docOp sock d now => exact inv_docOp st1 sock d now ih
    | cursorMove sock cur => exact inv_cursor st1 sock cur ih
    | langChange sock lang now => exact inv_lang st1 sock lang now ih
    | chatMsg sock message freshId now => exact inv_chat st1 sock message freshId now ih
    | disconnect sock now => exact inv_disconnect st1 sock now ih
    | timerFire roomId => exact inv_cleanup st1 roomId ih

/-- Witness for C10: the invariant at the (reachable) initial state. -/
theorem C10_consistency_witness : Inv initialState :=
  C10_session_room_consistency initialState Reachable.init

/-- Witness for the amended C9 at a concrete state. -/
theorem C9_color_stable_witness :
    (alookup "a" (handleCursorPosition twoUserState "a"
        { line := 1, column := 1 }).1.userSessions).map
      (fun ses => ses.user.color) = some userA.color ∧
    (alookup "r1" (handleCursorPosition twoUserState "a"
        { line := 1, column := 1 }).1.rooms).map
      (fun r => (alookup "a" r.users).map (fun u => u.color)) = some (some userA.color) :=
  C9_color_stable_amended.2 twoUserState "a" { roomId := "r1", user := userA } twoUserRoom
    { line := 1, column := 1 } rfl rfl

end Crsor
